import Mathlib

/-!
Shallow embedding of the mpq-rust MPQ archive reader (src/archive.rs,
src/chain.rs, src/compression.rs) and proofs about its behaviour.

Bytes are modelled as `Nat` (values below 256 in well-formed inputs),
machine integers as `Nat` with explicit reduction modulo `2^32` where the
Rust `u32` arithmetic wraps.  Release-profile Rust semantics are used:
arithmetic overflow wraps, while out-of-bounds indexing and slicing are
modelled as a distinct `panic` outcome of the `MpqError` type.
-/

/-- The 32-bit modulus. -/
def U32 : Nat := 4294967296

/-- Outcomes of fallible operations in the reader: the `std::io::Error`
kinds that the code constructs, an end-of-file error from `read_exact`,
and a `panic` outcome modelling Rust runtime panics (out-of-bounds
indexing or slicing). -/
inductive MpqError where
  | notFound (what : String)
  | invalidData (msg : String)
  | other (msg : String)
  | alreadyExists (msg : String)
  | ioEof
  | panic
  deriving DecidableEq, Repr

/-- A random-access byte source: `seek(pos)` followed by
`read_exact`(len bytes).  `read_exact` fails (UnexpectedEof) when fewer
than `len` bytes remain at `pos`. -/
def readExact (file : List Nat) (pos len : Nat) : Option (List Nat) :=
  if pos + len ≤ file.length then some ((file.drop pos).take len) else none

/-- `byteorder::LittleEndian::read_u32` on the first four bytes. -/
def readU32LE (l : List Nat) : Nat :=
  match l with
  | b0 :: b1 :: b2 :: b3 :: _ => b0 + b1 * 256 + b2 * 65536 + b3 * 16777216
  | _ => 0

/-- Serialize a u32 back to four little-endian bytes. -/
def bytesOfU32 (w : Nat) : List Nat :=
  [w % 256, w / 256 % 256, w / 65536 % 256, w / 16777216 % 256]

/-- Parse a byte buffer into consecutive little-endian u32 words
(the `while x < buf.len() - 3` loop of `open_file`); a trailing group of
fewer than four bytes yields no word. -/
def parseWordsLE : List Nat → List Nat
  | b0 :: b1 :: b2 :: b3 :: rest => readU32LE [b0, b1, b2, b3] :: parseWordsLE rest
  | _ => []

/-- Modelled from the spec: the crypt module (src/crypt.rs is declared in
lib.rs but absent from the sources).  One step of the seed recurrence
`s = (s * 125 + 3) mod 0x2AAAAB` used to build the cipher table. -/
def cryptSeedStep (s : Nat) : Nat := (s * 125 + 3) % 0x2AAAAB

/-- `n`-fold iteration of the seed recurrence. -/
def seedIter : Nat → Nat → Nat
  | 0, s => s
  | n + 1, s => seedIter n (cryptSeedStep s)

/-- Modelled from the spec: one packed table cell from the seed state `s`
preceding it: two 16-bit pseudorandom values from two seed steps, packed
high-word/low-word. -/
def cellOf (s : Nat) : Nat :=
  let s1 := cryptSeedStep s
  let t1 := (s1 % 65536) * 65536
  let s2 := cryptSeedStep s1
  let t2 := s2 % 65536
  t1 + t2

/-- Modelled from the spec: the stream of packed table cells in generation
order; each cell consumes two seed steps. -/
def cryptGenList : Nat → Nat → List Nat
  | 0, _ => []
  | n + 1, s => cellOf s :: cryptGenList n (cryptSeedStep (cryptSeedStep s))

/-- Modelled from the spec: the 1280 cipher-table cells in the order they
are generated (outer loop `i in 0..256`, inner loop `j in 0..5`, seed
starting at 0x00100001). -/
def cryptGen : List Nat := cryptGenList 1280 0x00100001

/-- Checkpoints of the seed recurrence: entry `i` is the seed state
preceding generation index `80 * i`, i.e. `seedIter (160 * i) 0x00100001`
(theorem `cryptSeeds_spec` below).  Checkpoints keep every table lookup a
short computation. -/
def cryptSeeds : List Nat :=
  [1048577, 823928, 65473, 1565200, 24610, 2137763, 1066331, 2664771,
   1055416, 2540231, 146776, 1197877, 632989, 81042, 1209988, 1665243]

/-- The table cell at generation index `g`, computed from the nearest
seed checkpoint.  Theorem `cryptGenAt_eq` below identifies this with
`cryptGen.getD g 0` for `g < 1280`. -/
def cryptGenAt (g : Nat) : Nat :=
  cellOf (seedIter (2 * (g % 80)) (cryptSeeds.getD (g / 80) 0))

/-- Modelled from the spec: `CRYPT_TABLE[pos]` for `pos = i + 0x100 * j`.
The cell at position `i + 0x100 * j` is the one generated at iteration
`(i, j)`, i.e. at generation index `i * 5 + j`. -/
def cryptTableAt (pos : Nat) : Nat :=
  cryptGenAt ((pos % 256) * 5 + pos / 256)

/-- Modelled from the spec: per-byte normalization inside `hash_string`:
`'/'` (47) becomes `'\\'` (92) and lowercase ASCII is uppercased. -/
def hashNormByte (b : Nat) : Nat :=
  if b = 47 then 92 else if 97 ≤ b ∧ b ≤ 122 then b - 32 else b

/-- Modelled from the spec: one `hash_string` folding step over the
running pair `(seed1, seed2)` for input byte `b`, all u32 arithmetic. -/
def hashStringStep (seedOffset : Nat) (p : Nat × Nat) (b : Nat) : Nat × Nat :=
  let ch := hashNormByte b
  let s1 := (cryptTableAt (seedOffset + ch)) ^^^ ((p.1 + p.2) % U32)
  let s2 := (ch + s1 + p.2 + (p.2 * 32) % U32 + 3) % U32
  (s1, s2)

/-- Modelled from the spec: `hash_string(text, seed_offset)` folds the
(ASCII) bytes of `text` from `seed1 = 0x7FED7FED`, `seed2 = 0xEEEEEEEE`
and returns `seed1`. -/
def hashString (text : String) (seedOffset : Nat) : Nat :=
  (text.data.foldl (fun p c => hashStringStep seedOffset p c.toNat)
    (0x7FED7FED, 0xEEEEEEEE)).1

/-- Modelled from the spec: the `decrypt` key update
`key = ((NOT key << 0x15) + 0x11111111) OR (key >> 0x0B)` (u32). -/
def decryptKeyStep (key : Nat) : Nat :=
  ((((U32 - 1 - key) * 2097152) % U32 + 0x11111111) % U32) ||| (key / 2048)

/-- Modelled from the spec: decrypt a list of u32 words in place with
`key`, threading the running `seed2` (initially 0xEEEEEEEE). -/
def decryptWordsAux (key seed2 : Nat) : List Nat → List Nat
  | [] => []
  | w :: rest =>
    let s2 := (seed2 + cryptTableAt (0x400 + key % 256)) % U32
    let w2 := w ^^^ ((key + s2) % U32)
    let key2 := decryptKeyStep key
    let s3 := (w2 + s2 + (s2 * 32) % U32 + 3) % U32
    w2 :: decryptWordsAux key2 s3 rest

/-- Modelled from the spec: `decrypt(buf, key)` treats `buf` as
little-endian u32 words, decrypts them, and leaves any trailing bytes
(buffer length not a multiple of 4) unmodified. -/
def decryptBuf (buf : List Nat) (key : Nat) : List Nat :=
  ((decryptWordsAux key 0xEEEEEEEE (parseWordsLE buf)).flatMap bytesOfU32)
    ++ buf.drop (buf.length / 4 * 4)

/-- Block flag: implode method by pkware compression library. -/
def FILE_IMPLODE : Nat := 0x00000100

/-- Block flag: compress methods by multiple methods. -/
def FILE_COMPRESS : Nat := 0x00000200

/-- Block flag: file is encrypted. -/
def FILE_ENCRYPTED : Nat := 0x00010000

/-- Block flag: file decryption key is altered according to position of
file in archive. -/
def FILE_FIX_KEY : Nat := 0x00020000

/-- Block flag: file is a patch file. -/
def FILE_PATCH_FILE : Nat := 0x00100000

/-- Block flag: file is stored as single unit. -/
def FILE_SINGLE_UNIT : Nat := 0x01000000

/-- Block flag: per-sector checksums present. -/
def FILE_SECTOR_CRC : Nat := 0x04000000

/-- Mask covering all compression method flag bits. -/
def FILE_COMPRESS_MASK : Nat := 0x0000FF00

/-- A decrypted hash-table entry (struct `Hash` in archive.rs). -/
structure HashEnt where
  hashA : Nat
  hashB : Nat
  locale : Nat
  platformId : Nat
  blockIndex : Nat
  deriving DecidableEq, Repr

/-- A decrypted block-table entry (struct `Block` in archive.rs). -/
structure BlockEnt where
  offset : Nat
  packedSize : Nat
  unpackedSize : Nat
  flags : Nat
  deriving DecidableEq, Repr

/-- The state of an open `Archive`: the underlying byte source, the
header's hash-table count, the decrypted tables, the sector size and the
archive base offset. -/
structure ArchiveSt where
  file : List Nat
  hashTableCount : Nat
  hashTable : List HashEnt
  blockTable : List BlockEnt
  sectorSize : Nat
  offset : Nat
  deriving DecidableEq, Repr

/-- The `File` handle produced by `Archive::open_file`. -/
structure FileM where
  name : String
  hash : HashEnt
  block : BlockEnt
  sectorOffsets : List Nat
  sectorChecksums : List Nat
  fileKey : Nat
  deriving DecidableEq, Repr

/-- `File::size()`. -/
def fileSize (f : FileM) : Nat := f.block.unpackedSize

/-- Splitting a character list at separators, Rust `str::split`
semantics: every separator ends the current piece and starts a new one,
so leading, trailing and doubled separators produce empty pieces and the
result is always non-empty.  `acc` holds the current piece reversed. -/
def splitParts (sep : Char → Bool) : List Char → List Char → List String
  | acc, [] => [String.mk acc.reverse]
  | acc, c :: rest =>
    if sep c then String.mk acc.reverse :: splitParts sep [] rest
    else splitParts sep (c :: acc) rest

/-- `filename.split(&['\\', '/'][..])` of the Rust code. -/
def pathParts (nm : String) : List String :=
  splitParts (fun c => c == '\\' || c == '/') [] nm.data

/-- The path component after the last backslash or forward slash
(`split(...).last()`; `split` always yields at least one piece). -/
def basename (nm : String) : String := (pathParts nm).getLastD ""

/-- The sector count computed by `open_file` for non-SINGLE_UNIT files:
`((block.unpacked_size - 1) / self.sector_size) + 1` with the u32
subtraction wrapping (release profile) when `unpacked_size = 0`. -/
def numSectorsCode (unpackedSize sectorSize : Nat) : Nat :=
  (unpackedSize + (U32 - 1)) % U32 / sectorSize + 1

/-- The sequential checksum-reading loop of `open_file`: `num` successive
4-byte `read_exact`s starting at `pos`, each parsed as a u32. -/
def readChecksums (file : List Nat) (pos : Nat) : Nat → Option (List Nat)
  | 0 => some []
  | n + 1 =>
    match readExact file pos 4 with
    | none => none
    | some b =>
      match readChecksums file (pos + 4) n with
      | none => none
      | some rest => some (readU32LE b :: rest)

/-- The file-key derivation of `open_file` (archive.rs lines 254-270):
`let mut file_key = 0`; for encrypted blocks the key is the basename hash
with seed 0x300, adjusted by block offset and unpacked size under
FIX_KEY. -/
def fileKeyOf (block : BlockEnt) (filename : String) : Except MpqError Nat :=
  if block.flags &&& FILE_ENCRYPTED ≠ 0 then
    match (pathParts filename).getLast? with
    | some b =>
      let k := hashString b 0x300
      .ok (if block.flags &&& FILE_FIX_KEY ≠ 0 then
            ((k + block.offset) % U32) ^^^ block.unpackedSize
          else k)
    | none => .error (.other "Unable to extract filename from path")
  else .ok 0

/-- The sector-index and checksum loading of `open_file` (archive.rs lines
272-318): for non-SINGLE_UNIT blocks, read `(num_sectors + 1)` u32 sector
offsets at `block.offset + archive.offset` (decrypted with `file_key - 1`
when encrypted), then, when COMPRESS and SECTOR_CRC are both set and the
checksum region has the expected size, the per-sector Adler-32 values.
Returns `(sector_offsets, sector_checksums)`. -/
def loadSectorIndex (a : ArchiveSt) (block : BlockEnt) (fileKey : Nat) :
    Except MpqError (List Nat × List Nat) :=
  if block.flags &&& FILE_SINGLE_UNIT = 0 then
        if a.sectorSize = 0 then .error .panic
        else
          let num := numSectorsCode block.unpackedSize a.sectorSize
          let len := (num + 1) * 4
          match readExact a.file (block.offset + a.offset) len with
          | none => .error .ioEof
          | some raw =>
            let buf := if block.flags &&& FILE_ENCRYPTED ≠ 0 then
                decryptBuf raw ((fileKey + (U32 - 1)) % U32)
              else raw
            let sectorOffsets := parseWordsLE buf
            if block.flags &&& FILE_COMPRESS ≠ 0 ∧
                block.flags &&& FILE_SECTOR_CRC ≠ 0 then
              match readExact a.file (block.offset + a.offset + len) 4 with
              | none => .error .ioEof
              | some b4 =>
                let lastOffset := readU32LE b4
                match sectorOffsets.get? num with
                | none => .error .panic
                | some checksumOffset =>
                  let secSize := (lastOffset + U32 - checksumOffset) % U32
                  let expected := num * 4 % U32
                  if secSize = expected then
                    match readChecksums a.file (block.offset + checksumOffset) num with
                    | none => .error .ioEof
                    | some sums => .ok (sectorOffsets, sums)
                  else .ok (sectorOffsets, [])
            else .ok (sectorOffsets, [])
  else .ok ([], [])

/-- The body of `open_file` once the probe has matched hash entry `e`:
index the block table (a sentinel or out-of-range `block_index` panics),
derive the file key, load the sector index, and build the `File`
handle. -/
def resolveEntry (a : ArchiveSt) (filename : String) (e : HashEnt) :
    Except MpqError FileM :=
  match a.blockTable.get? e.blockIndex with
  | none => .error .panic
  | some block =>
    match fileKeyOf block filename with
    | .error err => .error err
    | .ok fileKey =>
      match loadSectorIndex a block fileKey with
      | .error err => .error err
      | .ok so => .ok ⟨filename, e, block, so.1, so.2, fileKey⟩

/-- The linear probe `for i in start_index..self.hash_table.len()` of
`open_file`, with an explicit fuel argument for structural recursion (the
fuel passed by `openFile` strictly exceeds the number of loop steps, so
the fuel-exhausted branch is unreachable).  A slot whose `(hash_a,
hash_b)` pair matches is resolved; any other slot is stepped over; running
past the end of the table yields `NotFound`. -/
def probeAux (a : ArchiveSt) (filename : String) (hA hB : Nat) :
    Nat → Nat → Except MpqError FileM
  | 0, _ => .error (.notFound filename)
  | fuel + 1, i =>
    match a.hashTable.get? i with
    | none => .error (.notFound filename)
    | some e =>
      if e.hashA = hA ∧ e.hashB = hB then resolveEntry a filename e
      else probeAux a filename hA hB fuel (i + 1)

/-- `(hash_string(filename, 0x0) & (self.header.hash_table_count - 1))`,
the u32 subtraction wrapping when the count is zero. -/
def startIndexCode (a : ArchiveSt) (filename : String) : Nat :=
  hashString filename 0x0 &&& ((a.hashTableCount + (U32 - 1)) % U32)

/-- `Archive::open_file` (archive.rs lines 237-332). -/
def openFile (a : ArchiveSt) (filename : String) : Except MpqError FileM :=
  probeAux a filename (hashString filename 0x100) (hashString filename 0x200)
    (a.hashTable.length + 1) (startIndexCode a filename)

/-- `HEADER_SIZE_V1 = 0x20`: the buffer read at each scan step of
`Archive::open`. -/
def HEADER_SIZE_V1 : Nat := 32

/-- The magic `b"MPQ\x1A"`. -/
def ID_MPQA : List Nat := [77, 80, 81, 26]

/-- The magic `b"MPQ\x1B"`. -/
def ID_MPQB : List Nat := [77, 80, 81, 27]

/-- `buffer.starts_with(magic)`. -/
def startsWith4 (buf magic : List Nat) : Bool := buf.take 4 == magic

/-- A parsed user-data header (struct `UserDataHeader` in archive.rs). -/
structure UserDataHeader where
  magic : List Nat
  userDataSize : Nat
  headerOffset : Nat
  userDataHeaderSize : Nat
  deriving DecidableEq, Repr

/-- `UserDataHeader::new`. -/
def parseUserDataHeader (buf : List Nat) : UserDataHeader :=
  ⟨buf.take 4, readU32LE (buf.drop 4), readU32LE (buf.drop 8),
    readU32LE (buf.drop 12)⟩

/-- The header-locator loop of `Archive::open` (archive.rs lines 153-184):
read `HEADER_SIZE_V1` bytes at the current offset; `"MPQ\x1A"` ends the
scan there; `"MPQ\x1B"` is parsed as a user-data header whose
`header_offset` advances the base, where `"MPQ\x1A"` is then required;
otherwise step by 0x200.  Fuel argument for structural recursion; the fuel
passed by `headerScan` strictly exceeds the possible number of 0x200 steps
(each step needs `offset + 32 ≤ file.length` and offsets are multiples of
0x200), so the fuel-exhausted branch is unreachable. -/
def headerScanAux (file : List Nat) :
    Nat → Nat → Except MpqError (Nat × Option UserDataHeader)
  | 0, _ => .error .ioEof
  | fuel + 1, offset =>
    match readExact file offset HEADER_SIZE_V1 with
    | none => .error .ioEof
    | some buf =>
      if startsWith4 buf ID_MPQA then .ok (offset, none)
      else if startsWith4 buf ID_MPQB then
        let h := parseUserDataHeader buf
        let off2 := offset + h.headerOffset
        match readExact file off2 HEADER_SIZE_V1 with
        | none => .error .ioEof
        | some buf2 =>
          if startsWith4 buf2 ID_MPQA then .ok (off2, some h)
          else .error (.invalidData "Not a valid MPQ archive")
      else headerScanAux file fuel (offset + 0x200)

/-- The header-locator portion of `Archive::open`, scanning from offset 0.
Returns the archive base offset and the optional user-data header. -/
def headerScan (file : List Nat) : Except MpqError (Nat × Option UserDataHeader) :=
  headerScanAux file (file.length / 0x200 + 2) 0

/-- Modelled from the spec: §4.3 states that the locator reads 44 bytes at
each scan step.  Refinement-comparison variant of `headerScanAux`, to be
diffed against the code's 32-byte reads. -/
def headerScanSpecAux (file : List Nat) :
    Nat → Nat → Except MpqError (Nat × Option UserDataHeader)
  | 0, _ => .error .ioEof
  | fuel + 1, offset =>
    match readExact file offset 44 with
    | none => .error .ioEof
    | some buf =>
      if startsWith4 buf ID_MPQA then .ok (offset, none)
      else if startsWith4 buf ID_MPQB then
        let h := parseUserDataHeader buf
        let off2 := offset + h.headerOffset
        match readExact file off2 44 with
        | none => .error .ioEof
        | some buf2 =>
          if startsWith4 buf2 ID_MPQA then .ok (off2, some h)
          else .error (.invalidData "Not a valid MPQ archive")
      else headerScanSpecAux file fuel (offset + 0x200)

/-- Modelled from the spec: the 44-byte-read header locator from offset 0. -/
def headerScanSpec (file : List Nat) : Except MpqError (Nat × Option UserDataHeader) :=
  headerScanSpecAux file (file.length / 0x200 + 2) 0

/-- `decompress` from src/compression.rs: the first byte of `data` is the
method mask (indexing `data[0]` panics on an empty buffer).  Only the zlib
bit (0x02) selects a decoder — the zlib codec is an external collaborator,
passed as `zlib` returning its `total_out()` count; every other method bit
merely prints a FixMe line, and the function falls through to return 0.
The return type carries no error case beyond the possible panic: the Rust
function returns a plain `u64`. -/
def decompress (zlib : List Nat → Nat → Nat) (data : List Nat)
    (outLen : Nat) : Except MpqError Nat :=
  match data with
  | [] => .error .panic
  | c :: rest => if c &&& 0x02 ≠ 0 then .ok (zlib rest outLen) else .ok 0

/-- The raw-sector test of `read_sector_file` (archive.rs lines 426 and
436): the sector is stored raw — copied verbatim instead of decoded —
when its on-disk length equals the nominal sector size or equals the
length of the remaining output slice `out[read..]`. -/
def sectorIsRaw (diskLen nominalSectorSize remaining : Nat) : Bool :=
  diskLen == nominalSectorSize || diskLen == remaining

/-- The verbatim copy loop
`for (dst, src) in out_buf.iter_mut().zip(in_buf)`: writes
`min(src.length, out.length - read)` bytes of `src` into `out` starting at
position `read`, returning the new buffer and the count copied. -/
def copyInto (out : List Nat) (read : Nat) (src : List Nat) :
    List Nat × Nat :=
  let k := min src.length (out.length - read)
  (out.take read ++ src.take k ++ out.drop (read + k), k)

/-- `RollingAdler32::from_value(0)` followed by `update_buffer`: the
Adler-32 rolling sums starting from a = 0, b = 0 (hash value 0), returning
`(b << 16) | a`. -/
def adler32Aux : List Nat → Nat → Nat → Nat
  | [], a, b => b * 65536 + a
  | x :: rest, a, b =>
    adler32Aux rest ((a + x) % 65521) ((b + (a + x) % 65521) % 65521)

/-- The checksum computed over a sector's on-disk bytes. -/
def adler32From0 (l : List Nat) : Nat := adler32Aux l 0 0

/-- The per-sector loop of `File::read_sector_file` (archive.rs lines
397-446).  `rem` counts the remaining iterations (`sector_offsets.len() -
1` at entry), `i` the sector index, `read` the bytes produced so far.  The
external codecs `decomp` and `explode` receive the on-disk bytes and the
remaining output slice and return the decoded slice with its length.
Returns the final output buffer and the result. -/
def readSectorLoop (decomp explode : List Nat → List Nat → Except MpqError (List Nat × Nat))
    (f : FileM) (a : ArchiveSt) :
    Nat → Nat → Nat → List Nat → List Nat × Except MpqError Nat
  | 0, _, read, out => (out, .ok read)
  | rem + 1, i, read, out =>
    let sectorOffset := f.sectorOffsets.getD i 0
    let secSize := (f.sectorOffsets.getD (i + 1) 0 + U32 - sectorOffset) % U32
    if secSize > a.sectorSize then (out, .error .panic)
    else
      match readExact a.file (f.block.offset + sectorOffset + a.offset) secSize with
      | none => (out, .error .ioEof)
      | some raw =>
        let inBuf := if f.block.flags &&& FILE_ENCRYPTED ≠ 0 then
            decryptBuf raw ((f.fileKey + i) % U32)
          else raw
        if ¬ f.sectorChecksums.isEmpty ∧ f.sectorChecksums.getD i 0 ≠ 0 ∧
            f.sectorChecksums.getD i 0 ≠ adler32From0 inBuf then
          (out, .error (.other "Sector checksum error"))
        else if f.block.flags &&& FILE_COMPRESS ≠ 0 then
          if sectorIsRaw inBuf.length a.sectorSize (out.length - read) then
            let p := copyInto out read inBuf
            readSectorLoop decomp explode f a rem (i + 1) (read + p.2) p.1
          else
            match decomp inBuf (out.drop read) with
            | .error e => (out, .error e)
            | .ok (slice, n) =>
              readSectorLoop decomp explode f a rem (i + 1) (read + n)
                (out.take read ++ slice)
        else if f.block.flags &&& FILE_IMPLODE ≠ 0 then
          if sectorIsRaw inBuf.length a.sectorSize (out.length - read) then
            let p := copyInto out read inBuf
            readSectorLoop decomp explode f a rem (i + 1) (read + p.2) p.1
          else
            match explode inBuf (out.drop read) with
            | .error e => (out, .error e)
            | .ok (slice, n) =>
              readSectorLoop decomp explode f a rem (i + 1) (read + n)
                (out.take read ++ slice)
        else readSectorLoop decomp explode f a rem (i + 1) read out

/-- `File::read_sector_file`: the compressed path iterates the sector
loop; a file with no compression flag bits is read with a single
`read_exact` covering the whole output buffer. -/
def readSectorFile (decomp explode : List Nat → List Nat → Except MpqError (List Nat × Nat))
    (f : FileM) (a : ArchiveSt) (out : List Nat) :
    List Nat × Except MpqError Nat :=
  if f.block.flags &&& FILE_COMPRESS_MASK ≠ 0 then
    readSectorLoop decomp explode f a (f.sectorOffsets.length - 1) 0 0 out
  else
    match readExact a.file (f.block.offset + a.offset) out.length with
    | none => (out, .error .ioEof)
    | some raw => (raw, .ok raw.length)

/-- `File::read_single_unit_file`, called with
`buff_size = block.packed_size`. -/
def readSingleUnitFile (decomp explode : List Nat → List Nat → Except MpqError (List Nat × Nat))
    (f : FileM) (a : ArchiveSt) (buffSize : Nat) (out : List Nat) :
    List Nat × Except MpqError Nat :=
  match readExact a.file (f.block.offset + a.offset) buffSize with
  | none => (out, .error .ioEof)
  | some raw =>
    let inBuff := if f.block.flags &&& FILE_ENCRYPTED ≠ 0 then
        decryptBuf raw f.fileKey
      else raw
    if f.block.flags &&& FILE_COMPRESS ≠ 0 ∧ out.length > inBuff.length then
      match decomp inBuff out with
      | .error e => (out, .error e)
      | .ok (slice, n) => (slice, .ok n)
    else if f.block.flags &&& FILE_IMPLODE ≠ 0 then
      match explode inBuff out with
      | .error e => (out, .error e)
      | .ok (slice, n) => (slice, .ok n)
    else
      let p := copyInto out 0 inBuff
      (p.1, .ok f.block.unpackedSize)

/-- `File::read` (archive.rs lines 375-390): patch files error out;
SINGLE_UNIT files take the single-unit path; all others the sectored
path.  Returns the final output buffer alongside the result, so that the
buffer state is visible even when the result is an error. -/
def fileRead (decomp explode : List Nat → List Nat → Except MpqError (List Nat × Nat))
    (f : FileM) (a : ArchiveSt) (out : List Nat) :
    List Nat × Except MpqError Nat :=
  if f.block.flags &&& FILE_PATCH_FILE ≠ 0 then
    (out, .error (.other "Patch file not supported"))
  else if f.block.flags &&& FILE_SINGLE_UNIT ≠ 0 then
    readSingleUnitFile decomp explode f a f.block.packedSize out
  else readSectorFile decomp explode f a out

/-- `Chain::add` (chain.rs lines 20-27), with the result of
`Archive::open(path)` passed in: on success the archive is inserted at
index 0; on failure the error is returned and the chain is untouched. -/
def chainAdd (c : List ArchiveSt) (opened : Except MpqError ArchiveSt) :
    List ArchiveSt × Except MpqError Unit :=
  match opened with
  | .ok v => (v :: c, .ok ())
  | .error e => (c, .error e)

/-- The archive loop of `Chain::read` (chain.rs lines 29-49): the first
archive whose `open_file` succeeds supplies the result; a buffer of
`file.size()` zeros is allocated, `file.read` fills it, and any read
error is printed and discarded — the buffer is returned as `Ok` either
way.  An archive whose `open_file` fails with any error is skipped. -/
def chainReadLoop (decomp explode : List Nat → List Nat → Except MpqError (List Nat × Nat)) :
    List ArchiveSt → String → Except MpqError (List Nat)
  | [], _ => .error (.notFound "File not found in mpq chain")
  | a :: rest, nm =>
    match openFile a nm with
    | .error _ => chainReadLoop decomp explode rest nm
    | .ok f =>
      let p := fileRead decomp explode f a (List.replicate (fileSize f) 0)
      .ok p.1

/-- `Chain::read`. -/
def chainRead (decomp explode : List Nat → List Nat → Except MpqError (List Nat × Nat))
    (c : List ArchiveSt) (nm : String) : Except MpqError (List Nat) :=
  chainReadLoop decomp explode c nm

instance {ε α : Type _} [DecidableEq ε] [DecidableEq α] : DecidableEq (Except ε α) := fun x y =>
  match x, y with
  | .ok a, .ok b =>
    if h : a = b then .isTrue (congrArg Except.ok h)
    else .isFalse fun hh => h (Except.ok.inj hh)
  | .error a, .error b =>
    if h : a = b then .isTrue (congrArg Except.error h)
    else .isFalse fun hh => h (Except.error.inj hh)
  | .ok _, .error _ => .isFalse fun hh => Except.noConfusion hh
  | .error _, .ok _ => .isFalse fun hh => Except.noConfusion hh

/-- A placeholder external codec used to instantiate the codec parameters
in concrete evaluations whose control flow never reaches a codec. -/
def dummyCodec : List Nat → List Nat → Except MpqError (List Nat × Nat) :=
  fun _ _ => .error .panic

/-- Archive whose single hash slot carries the `(hash_a, hash_b)` pair of
the name "a" but the deleted-entry sentinel `0xFFFFFFFE` as block index;
the block table has one entry. -/
def archC1 : ArchiveSt :=
  ⟨[], 1, [⟨hashString "a" 0x100, hashString "a" 0x200, 0, 0, 0xFFFFFFFE⟩],
    [⟨0, 3, 3, FILE_SINGLE_UNIT⟩], 512, 0⟩

/-- Archive with `hash_table_count = 2` whose slot 0 — the start slot for
the name "c", since `hash_string("c", 0x0) AND 1 = 0` — is
empty-never-used (block index `0xFFFFFFFF`, non-matching hashes) and
whose slot 1 is a live entry matching "c". -/
def archC1e : ArchiveSt :=
  ⟨[], 2,
    [⟨0, 0, 0, 0, 0xFFFFFFFF⟩,
     ⟨hashString "c" 0x100, hashString "c" 0x200, 0, 0, 0⟩],
    [⟨0, 3, 3, FILE_SINGLE_UNIT⟩], 512, 0⟩

/-- The file handle that `openFile archC1e "c"` produces from slot 1. -/
def fileC1e : FileM :=
  ⟨"c", ⟨hashString "c" 0x100, hashString "c" 0x200, 0, 0, 0⟩,
    ⟨0, 3, 3, FILE_SINGLE_UNIT⟩, [], [], 0⟩

/-- Archive with `hash_table_count = 2` whose entry for the name "a"
(whose start slot is `hash_string("a", 0x0) AND 1 = 1`) sits at slot 0,
strictly before the start slot; slot 1 does not match. -/
def archC2 : ArchiveSt :=
  ⟨[1, 2, 3], 2,
    [⟨hashString "a" 0x100, hashString "a" 0x200, 0, 0, 0⟩,
     ⟨0, 0, 0, 0, 0xFFFFFFFF⟩],
    [⟨0, 3, 3, FILE_SINGLE_UNIT⟩], 512, 0⟩

/-- Archive containing the name "p" as a PATCH_FILE + SINGLE_UNIT block:
`open_file` succeeds, `File::read` fails with "Patch file not
supported". -/
def archPatch : ArchiveSt :=
  ⟨[], 1, [⟨hashString "p" 0x100, hashString "p" 0x200, 0, 0, 0⟩],
    [⟨0, 5, 5, FILE_PATCH_FILE + FILE_SINGLE_UNIT⟩], 512, 0⟩

/-- The file handle that `openFile archPatch "p"` produces. -/
def filePatch : FileM :=
  ⟨"p", ⟨hashString "p" 0x100, hashString "p" 0x200, 0, 0, 0⟩,
    ⟨0, 5, 5, FILE_PATCH_FILE + FILE_SINGLE_UNIT⟩, [], [], 0⟩

/-- The pathname used for the encrypted FIX_KEY example. -/
def nmC7 : String := "units\\unit.dat"

/-- Archive containing `units\unit.dat` as an encrypted FIX_KEY
SINGLE_UNIT block at offset 0x4000 with unpacked size 100. -/
def archC7 : ArchiveSt :=
  ⟨[], 1, [⟨hashString nmC7 0x100, hashString nmC7 0x200, 0, 0, 0⟩],
    [⟨0x4000, 100, 100, FILE_ENCRYPTED + FILE_FIX_KEY + FILE_SINGLE_UNIT⟩],
    512, 0⟩

/-- The file handle that `openFile archC7 nmC7` produces: its key is the
basename hash adjusted by offset and unpacked size. -/
def fileC7 : FileM :=
  ⟨nmC7, ⟨hashString nmC7 0x100, hashString nmC7 0x200, 0, 0, 0⟩,
    ⟨0x4000, 100, 100, FILE_ENCRYPTED + FILE_FIX_KEY + FILE_SINGLE_UNIT⟩,
    [], [],
    ((hashString "unit.dat" 0x300 + 0x4000) % U32) ^^^ 100⟩

/-- Archive added first in the chain-precedence scenario: contains "X"
with bytes `[1, 2, 3]`. -/
def archA8 : ArchiveSt :=
  ⟨[1, 2, 3], 1, [⟨hashString "X" 0x100, hashString "X" 0x200, 0, 0, 0⟩],
    [⟨0, 3, 3, FILE_SINGLE_UNIT⟩], 512, 0⟩

/-- Archive added second in the chain-precedence scenario: contains "X"
with bytes `[4, 5, 6]`. -/
def archB8 : ArchiveSt :=
  ⟨[4, 5, 6], 1, [⟨hashString "X" 0x100, hashString "X" 0x200, 0, 0, 0⟩],
    [⟨0, 3, 3, FILE_SINGLE_UNIT⟩], 512, 0⟩

/-- A 32-byte file beginning with the `"MPQ\x1A"` magic. -/
def f32ex : List Nat := ID_MPQA ++ List.replicate 28 0

/-- Iterating the seed recurrence `m + n` times iterates it `m` times and
then `n` more times. -/
theorem seedIter_add (m n s : Nat) :
    seedIter (m + n) s = seedIter n (seedIter m s) := by
  induction m generalizing s with
  | zero => simp [seedIter]
  | succ m ih =>
    rw [show m + 1 + n = (m + n) + 1 by omega]
    show seedIter (m + n) (cryptSeedStep s) = _
    rw [ih]
    rfl

set_option maxRecDepth 8000 in
/-- The seed checkpoints equal the iterated seed recurrence: entry `j` of
`cryptSeeds` is the seed after `160 * j` steps from 0x00100001. -/
theorem cryptSeeds_spec :
    ∀ j, j < 16 → cryptSeeds.getD j 0 = seedIter (160 * j) 0x00100001 := by
  have t : ∀ i, i < 15 →
      seedIter 160 (cryptSeeds.getD i 0) = cryptSeeds.getD (i + 1) 0 := by decide
  intro j
  induction j with
  | zero => intro _; decide
  | succ j ih =>
    intro hj
    rw [show 160 * (j + 1) = 160 * j + 160 by ring, seedIter_add,
      ← ih (by omega), t j (by omega)]

/-- Entry `m` of the generated cell stream from seed `s` is the cell built
from the seed after `2 * m` steps. -/
theorem cryptGenList_getD (m : Nat) :
    ∀ n s, m < n → (cryptGenList n s).getD m 0 = cellOf (seedIter (2 * m) s) := by
  induction m with
  | zero =>
    intro n s hn
    match n, hn with
    | k + 1, _ => simp [cryptGenList, seedIter]
  | succ m ih =>
    intro n s hn
    match n, hn with
    | k + 1, hn =>
      show (cryptGenList k (cryptSeedStep (cryptSeedStep s))).getD m 0 = _
      rw [ih k _ (by omega), show 2 * (m + 1) = 2 * m + 1 + 1 by ring]
      rfl

/-- The checkpoint-based table lookup agrees with the spec recurrence:
for every generation index below 1280, `cryptGenAt` returns the
corresponding cell of `cryptGen`. -/
theorem cryptGenAt_eq (g : Nat) (hg : g < 1280) :
    cryptGenAt g = cryptGen.getD g 0 := by
  unfold cryptGenAt cryptGen
  rw [cryptSeeds_spec (g / 80) (by omega), ← seedIter_add,
    show 160 * (g / 80) + 2 * (g % 80) = 2 * g by omega,
    cryptGenList_getD g 1280 0x00100001 hg]

/-- A successful `resolveEntry` records the indexed block entry and the
key computed by `fileKeyOf` in the returned handle. -/
theorem resolveEntry_ok (a : ArchiveSt) (nm : String) (e : HashEnt) (f : FileM)
    (h : resolveEntry a nm e = .ok f) :
    a.blockTable.get? e.blockIndex = some f.block ∧
    fileKeyOf f.block nm = .ok f.fileKey := by
  unfold resolveEntry at h
  split at h
  · exact absurd h (by simp)
  next block hb =>
    split at h
    · exact absurd h (by simp)
    next fileKey hk =>
      split at h
      · exact absurd h (by simp)
      next so hs =>
        cases h
        exact ⟨hb, hk⟩

/-- A successful `fileKeyOf` on an encrypted block yields the basename
hash with seed 0x300, FIX_KEY-adjusted when that flag is set. -/
theorem fileKeyOf_encrypted (block : BlockEnt) (nm : String) (k : Nat)
    (h : fileKeyOf block nm = .ok k)
    (henc : block.flags &&& FILE_ENCRYPTED ≠ 0) :
    k = if block.flags &&& FILE_FIX_KEY ≠ 0 then
          ((hashString (basename nm) 0x300 + block.offset) % U32) ^^^
            block.unpackedSize
        else hashString (basename nm) 0x300 := by
  unfold fileKeyOf at h
  rw [if_pos henc] at h
  split at h
  next b hb =>
    cases h
    have : basename nm = b := by
      unfold basename
      rw [List.getLastD_eq_getLast?, hb]
      rfl
    rw [this]
  next hb => exact absurd h (by simp)

/-- A successful probe resolves some hash entry. -/
theorem probeAux_ok (a : ArchiveSt) (nm : String) (hA hB : Nat) :
    ∀ fuel i f, probeAux a nm hA hB fuel i = .ok f →
      ∃ e, resolveEntry a nm e = .ok f := by
  intro fuel
  induction fuel with
  | zero => intro i f h; exact absurd h (by simp [probeAux])
  | succ fuel ih =>
    intro i f h
    unfold probeAux at h
    split at h
    · exact absurd h (by simp)
    next e he =>
      split at h
      · exact ⟨e, h⟩
      · exact ih (i + 1) f h

/-- C7: for every encrypted file resolved by `Archive::open_file`, the
file key equals `hash_string(basename, 0x300)` where `basename` is the
path component after the last backslash or forward slash; when the
FIX_KEY flag is also set the key becomes
`(key + block.offset) XOR block.unpacked_size` (u32 arithmetic). -/
theorem claim_C7_encrypted_file_key (a : ArchiveSt) (nm : String) (f : FileM)
    (h : openFile a nm = .ok f)
    (henc : f.block.flags &&& FILE_ENCRYPTED ≠ 0) :
    f.fileKey = if f.block.flags &&& FILE_FIX_KEY ≠ 0 then
        ((hashString (basename nm) 0x300 + f.block.offset) % U32) ^^^
          f.block.unpackedSize
      else hashString (basename nm) 0x300 := by
  obtain ⟨e, he⟩ := probeAux_ok a nm _ _ _ _ f h
  obtain ⟨-, hk⟩ := resolveEntry_ok a nm e f he
  exact fileKeyOf_encrypted f.block nm f.fileKey hk henc

set_option maxRecDepth 8000 in
/-- Witness for C7: the encrypted FIX_KEY file `units\unit.dat` in
`archC7` opens successfully and its key satisfies the formula. -/
theorem claim_C7_witness :
    (openFile archC7 nmC7 = .ok fileC7 ∧
      fileC7.block.flags &&& FILE_ENCRYPTED ≠ 0) ∧
    fileC7.fileKey = (if fileC7.block.flags &&& FILE_FIX_KEY ≠ 0 then
        ((hashString (basename nmC7) 0x300 + fileC7.block.offset) % U32) ^^^
          fileC7.block.unpackedSize
      else hashString (basename nmC7) 0x300) :=
  ⟨⟨by decide, by decide⟩,
    claim_C7_encrypted_file_key archC7 nmC7 fileC7 (by decide) (by decide)⟩

set_option maxRecDepth 8000 in
/-- C1: the probe of `Archive::open_file` does not treat sentinel block
indices specially.  On `archC1`, whose matching slot stores the deleted
sentinel `0xFFFFFFFE`, the probe uses it to index the block table and
panics (out of bounds) instead of skipping the slot; on `archC1e`, whose
start slot for "c" is empty-never-used (`0xFFFFFFFF`), the probe
continues past it and opens the file from slot 1 instead of terminating
with `NotFound`. -/
theorem claim_C1_sentinels_ignored :
    openFile archC1 "a" = .error .panic ∧
    startIndexCode archC1e "c" = 0 ∧
    openFile archC1e "c" = .ok fileC1e := by
  refine ⟨by decide, by decide, by decide⟩

set_option maxRecDepth 8000 in
/-- C2: the probe of `Archive::open_file` does not wrap around: on
`archC2` the matching entry for "a" is stored at slot 0, strictly before
the start slot `hash_string("a", 0x0) AND 1 = 1`, and the probe returns
`NotFound` instead of finding it. -/
theorem claim_C2_no_wraparound :
    startIndexCode archC2 "a" = 1 ∧
    archC2.hashTable.getD 0 ⟨0, 0, 0, 0, 0⟩ =
      ⟨hashString "a" 0x100, hashString "a" 0x200, 0, 0, 0⟩ ∧
    openFile archC2 "a" = .error (.notFound "a") := by
  refine ⟨by decide, by decide, by decide⟩

set_option maxRecDepth 8000 in
/-- C3: `Chain::read` does not propagate `File::read` errors.  On a chain
holding `archPatch`, `open_file` succeeds, `File::read` fails with
"Patch file not supported", yet `Chain::read` returns `Ok` with the
zero-filled buffer. -/
theorem claim_C3_read_error_swallowed :
    openFile archPatch "p" = .ok filePatch ∧
    (fileRead dummyCodec dummyCodec filePatch archPatch
        (List.replicate 5 0)).2 = .error (.other "Patch file not supported") ∧
    chainRead dummyCodec dummyCodec [archPatch] "p" =
      .ok (List.replicate 5 0) := by
  refine ⟨by decide, by decide, by decide⟩

/-- C4: `decompress` from src/compression.rs does not fail on unknown or
unimplemented method masks: for the PKZIP method byte 0x08 it returns 0
with no error, for any external zlib codec and output size (its Rust
return type, a plain u64, cannot even carry an error). -/
theorem claim_C4_no_unsupported_error
    (z : List Nat → Nat → Nat) (outLen : Nat) :
    decompress z (0x08 :: [1, 2, 3]) outLen = .ok 0 := rfl

/-- C5: the sector-count computation of `open_file` at
`unpacked_size = 0` with sector size 512: the u32 subtraction
`unpacked_size - 1` wraps (release profile; debug builds panic), giving
`0xFFFFFFFF / 512 + 1 = 8388608` sectors instead of the claimed 0, while
for positive sizes it matches `ceil`. -/
theorem claim_C5_zero_size_wraps :
    numSectorsCode 0 512 = 8388608 ∧
    numSectorsCode 1 512 = 1 ∧ numSectorsCode 512 512 = 1 ∧
    numSectorsCode 513 512 = 2 := by
  refine ⟨by decide, by decide, by decide, by decide⟩

/-- C10: when `Archive::open` fails, `Chain::add` returns that error and
leaves the chain unchanged: nothing is inserted and the size is the
same. -/
theorem claim_C10_add_failure_unchanged (c : List ArchiveSt) (e : MpqError) :
    chainAdd c (.error e) = (c, .error e) ∧
    (chainAdd c (.error e)).1.length = c.length :=
  ⟨rfl, rfl⟩

/-- Counterexample for C6: a sector of on-disk length 2 with nominal
sector size 4 and 1 remaining output byte is passed to decompression by
the code (`sectorIsRaw = false`), although the claimed condition
"less than the sector size AND less than the remaining bytes" does not
hold. -/
theorem claim_C6_counterexample :
    sectorIsRaw 2 4 1 = false ∧ ¬ (2 < 4 ∧ 2 < 1) := by decide

/-- C6 (amended): given that the on-disk length cannot exceed the nominal
sector size (the sector buffer slice panics otherwise), a sector is
passed to the decoder if and only if its on-disk length is less than the
nominal sector size AND different from the remaining output length. -/
theorem claim_C6_amended_raw_heuristic (len ss rem : Nat) (h : len ≤ ss) :
    sectorIsRaw len ss rem = false ↔ (len < ss ∧ len ≠ rem) := by
  unfold sectorIsRaw
  simp only [Bool.or_eq_false_iff, beq_eq_false_iff_ne, ne_eq]
  omega

/-- Witness for C6: on-disk length 3, sector size 4, remaining 7. -/
theorem claim_C6_witness :
    3 ≤ 4 ∧ (sectorIsRaw 3 4 7 = false ↔ (3 < 4 ∧ 3 ≠ 7)) :=
  ⟨by decide, claim_C6_amended_raw_heuristic 3 4 7 (by decide)⟩

/-- C8: `Chain::add` inserts at the front and `Chain::read` probes
front-first, so of two archives both containing `nm`, the one added
second supplies the bytes. -/
theorem claim_C8_chain_precedence
    (d e : List Nat → List Nat → Except MpqError (List Nat × Nat))
    (A B : ArchiveSt) (nm : String) (ca cb : List Nat)
    (hA : chainRead d e [A] nm = .ok ca)
    (hB : chainRead d e [B] nm = .ok cb)
    (hne : ca ≠ cb) :
    (chainAdd ((chainAdd [] (.ok A)).1) (.ok B)).1 = [B, A] ∧
    chainRead d e ((chainAdd ((chainAdd [] (.ok A)).1) (.ok B)).1) nm =
      .ok cb := by
  refine ⟨rfl, ?_⟩
  show chainRead d e [B, A] nm = .ok cb
  unfold chainRead chainReadLoop at hB ⊢
  cases hOB : openFile B nm with
  | error err => rw [hOB] at hB; simp [chainReadLoop] at hB
  | ok f => rw [hOB] at hB; exact hB

set_option maxRecDepth 8000 in
/-- Witness for C8: archives `archA8` (added first, "X" = [1,2,3]) and
`archB8` (added second, "X" = [4,5,6]); the chain returns [4,5,6]. -/
theorem claim_C8_witness :
    (chainRead dummyCodec dummyCodec [archA8] "X" = .ok [1, 2, 3] ∧
     chainRead dummyCodec dummyCodec [archB8] "X" = .ok [4, 5, 6] ∧
     ([1, 2, 3] : List Nat) ≠ [4, 5, 6]) ∧
    ((chainAdd ((chainAdd [] (.ok archA8)).1) (.ok archB8)).1 =
        [archB8, archA8] ∧
     chainRead dummyCodec dummyCodec
        ((chainAdd ((chainAdd [] (.ok archA8)).1) (.ok archB8)).1) "X" =
       .ok [4, 5, 6]) :=
  ⟨⟨by decide, by decide, by decide⟩,
    claim_C8_chain_precedence dummyCodec dummyCodec archA8 archB8 "X"
      [1, 2, 3] [4, 5, 6] (by decide) (by decide) (by decide)⟩

/-- Counterexample for C9: a 32-byte file starting with `"MPQ\x1A"`.  The
code's header scan (32-byte reads) accepts it with archive base 0, while
a scan issuing 44-byte reads, as the claim describes, fails with an I/O
error since the file holds fewer than 44 bytes. -/
theorem claim_C9_counterexample :
    headerScan f32ex = .ok (0, none) ∧
    headerScanSpec f32ex = .error .ioEof ∧
    f32ex.length = 32 := by
  refine ⟨by decide, by decide, by decide⟩

/-- C9 (amended): each step of the header scan of `Archive::open` reads
`HEADER_SIZE_V1 = 32` bytes (not 44): a failed read surfaces the I/O
error; a block starting with `"MPQ\x1A"` fixes the archive base at the
scan offset; a block starting with `"MPQ\x1B"` is parsed as a user-data
header, the base advances by its `header_offset` field, and the 32 bytes
read there must start with `"MPQ\x1A"`, otherwise the scan fails with
InvalidData "Not a valid MPQ archive"; any other block steps the scan by
0x200. -/
theorem claim_C9_amended_scan_step (file : List Nat) (fuel offset : Nat) :
    (readExact file offset HEADER_SIZE_V1 = none →
      headerScanAux file (fuel + 1) offset = .error .ioEof) ∧
    (∀ buf, readExact file offset HEADER_SIZE_V1 = some buf →
      (startsWith4 buf ID_MPQA = true →
        headerScanAux file (fuel + 1) offset = .ok (offset, none)) ∧
      (startsWith4 buf ID_MPQA = false → startsWith4 buf ID_MPQB = true →
        (readExact file (offset + (parseUserDataHeader buf).headerOffset)
            HEADER_SIZE_V1 = none →
          headerScanAux file (fuel + 1) offset = .error .ioEof) ∧
        (∀ buf2,
          readExact file (offset + (parseUserDataHeader buf).headerOffset)
              HEADER_SIZE_V1 = some buf2 →
          (startsWith4 buf2 ID_MPQA = true →
            headerScanAux file (fuel + 1) offset =
              .ok (offset + (parseUserDataHeader buf).headerOffset,
                some (parseUserDataHeader buf))) ∧
          (startsWith4 buf2 ID_MPQA = false →
            headerScanAux file (fuel + 1) offset =
              .error (.invalidData "Not a valid MPQ archive")))) ∧
      (startsWith4 buf ID_MPQA = false → startsWith4 buf ID_MPQB = false →
        headerScanAux file (fuel + 1) offset =
          headerScanAux file fuel (offset + 0x200))) := by
  refine ⟨fun h => by simp [headerScanAux, h], fun buf hbuf => ⟨?_, ?_, ?_⟩⟩
  · intro hA
    simp [headerScanAux, hbuf, hA]
  · intro hA hBm
    refine ⟨fun h2 => by simp [headerScanAux, hbuf, hA, hBm, h2], ?_⟩
    intro buf2 h2
    refine ⟨fun hA2 => by simp [headerScanAux, hbuf, hA, hBm, h2, hA2],
      fun hA2 => by simp [headerScanAux, hbuf, hA, hBm, h2, hA2]⟩
  · intro hA hBm
    simp [headerScanAux, hbuf, hA, hBm]

/-- Witness for C9: the scan step applied to the 32-byte file `f32ex`,
whose first block starts with `"MPQ\x1A"`. -/
theorem claim_C9_witness :
    headerScanAux f32ex 1 0 = .ok (0, none) :=
  ((claim_C9_amended_scan_step f32ex 0 0).2 f32ex (by decide)).1 (by decide)
